import Mathlib

/-!
Verification of the byte-comparison and hashing core of the Delta file
integrity checker (sources: `src/__main__.py`, `src/components/delta_mode.py`,
`src/components/hash_mode.py`).

Byte buffers are modelled as `List Nat` (a Python `bytes` object), file slots
as `Option (List Nat)` (`None` when no file has been loaded).  Python's
truthiness test on such a slot (`if not self.file_data`) is false both for
`None` and for the empty bytes object, which the model captures with `truthy`.
-/

namespace Delta

/-- Python truthiness of a file-data slot: `None` and `b""` are falsy,
any non-empty bytes object is truthy. -/
def truthy : Option (List Nat) → Bool
  | none => false
  | some l => !l.isEmpty

/-- `data[i] if i < len(data) else -1` — the byte read with the `-1` sentinel
for an absent byte, as in `ChunkComparisonWorker.run`
(`src/components/delta_mode.py` lines 71-72). -/
def byteOrSentinel (data : List Nat) (i : Nat) : Int :=
  if i < data.length then (data.getD i 0 : Int) else -1

/-- Python slice `l[start:start+len]`. -/
def pySlice (l : List Nat) (start len : Nat) : List Nat :=
  (l.drop start).take len

/-- The comparison `byte1 != byte2` of `ChunkComparisonWorker.run`
(`src/components/delta_mode.py` line 73) on the sentinel-extended reads. -/
def diffAt (data1 data2 : List Nat) (i : Nat) : Bool :=
  decide (byteOrSentinel data1 i ≠ byteOrSentinel data2 i)

/-- `ChunkComparisonWorker.run` (`src/components/delta_mode.py` lines 64-77):
scan offsets `0 ≤ i < max(len1, len2)` over the two chunk slices, read each
byte with the `-1` sentinel past a chunk's end, and record `offset + i`
whenever the two reads disagree.  The Python loop appends in increasing `i`
order, which is exactly filter-then-map over `range`. -/
def ChunkComparisonWorker_run (data1 data2 : List Nat) (offset : Nat) : List Nat :=
  ((List.range (max data1.length data2.length)).filter (diffAt data1 data2)).map
    (fun i => offset + i)

/-- The chunk starts `range(0, maxLen, chunkSize)` of
`FileView.compare_and_highlight` (`src/components/delta_mode.py` line 164);
for `chunkSize ≥ 1` the Python range has `ceil(maxLen / chunkSize)` elements. -/
def chunkStarts (maxLen chunkSize : Nat) : List Nat :=
  List.range' 0 ((maxLen + chunkSize - 1) / chunkSize) chunkSize

/-- The chunked comparison pipeline of `FileView.compare_and_highlight` /
`FileView.collect_diffs` (`src/components/delta_mode.py` lines 154-182):
`chunk_size = (max(len(A), len(B)) + num_threads - 1) // num_threads`; if it
is zero the method returns with no diffs; otherwise one
`ChunkComparisonWorker` per chunk start `i` runs on the slices
`A[i:i+chunk_size]`, `B[i:i+chunk_size]`, `collect_diffs` accumulates every
per-chunk list and finally sorts.  Workers complete in arbitrary order, so
the accumulated list is some permutation of the dispatch-order concatenation;
since the final `list.sort()` maps every permutation of a `List Nat` to the
one ascending arrangement of its multiset, the delivered list is modelled as
the sort (realised by `List.insertionSort`) of the dispatch-order
concatenation. -/
def compareChunked (A B : List Nat) (numThreads : Nat) : List Nat :=
  let maxLen := max A.length B.length
  let chunkSize := (maxLen + numThreads - 1) / numThreads
  if chunkSize = 0 then []
  else
    List.insertionSort (· ≤ ·)
      (((chunkStarts maxLen chunkSize).map
        (fun i => ChunkComparisonWorker_run
          (pySlice A i chunkSize) (pySlice B i chunkSize) i)).flatten)

/-- The naive single-pass reference scan: every offset in
`[0, max(len A, len B))` at which the two sentinel-extended reads disagree,
in increasing order. -/
def naiveDiffs (A B : List Nat) : List Nat :=
  (List.range (max A.length B.length)).filter (diffAt A B)

/-- The partition of `[0, totalLength)` implicit in
`FileView.compare_and_highlight` (`src/components/delta_mode.py` lines
154-174): chunk size `ceil(totalLength / workerCount)`, one half-open range
`[i, min(i + chunkSize, totalLength))` per chunk start `i`. -/
def partitionChunks (totalLength workerCount : Nat) : List (Nat × Nat) :=
  let chunkSize := (totalLength + workerCount - 1) / workerCount
  (chunkStarts totalLength chunkSize).map
    (fun s => (s, min (s + chunkSize) totalLength))

/-- `FileView.compare_and_highlight` (`src/components/delta_mode.py` lines
147-174) as seen at its interface: `none` when the method returns before
dispatching any chunk task (either file-data slot falsy, or chunk size zero),
`some diffs` when workers are dispatched and `collect_diffs` eventually
delivers the sorted diff list to `apply_highlights`. -/
def compare_and_highlight (fileData otherData : Option (List Nat))
    (numThreads : Nat) : Option (List Nat) :=
  if truthy fileData && truthy otherData then
    let A := fileData.getD []
    let B := otherData.getD []
    if (max A.length B.length + numThreads - 1) / numThreads = 0 then none
    else some (compareChunked A B numThreads)
  else none

/-- The short-circuit test of `DeltaApp.start_comparison`
(`src/__main__.py` line 173): `hash1 and hash2 and hash1 == hash2` — both
hash-output strings non-empty and equal.  No further inspection of the
strings happens there. -/
def shortCircuitFires (hash1 hash2 : String) : Bool :=
  !(hash1 == "") && !(hash2 == "") && hash1 == hash2

/-- An error digest: one written by the error path `f"Error: {result}"` of
`FileView.handle_worker_finished` (`src/components/delta_mode.py` line 137),
i.e. a string starting with `"Error:"`. -/
def isErrorText (s : String) : Bool :=
  List.isPrefixOf "Error:".toList s.toList

/-- Modelled from the spec: `shouldShortCircuit(digestA, digestB)` is
"true iff both digests are present, non-error, and byte-for-byte equal as
strings".  Presence is a non-empty string in the hash-output slot. -/
def shouldShortCircuit_specModel (hash1 hash2 : String) : Bool :=
  !(hash1 == "") && !(hash2 == "") &&
  !(isErrorText hash1) && !(isErrorText hash2) &&
  hash1 == hash2

/-- `DeltaApp.start_comparison` (`src/__main__.py` lines 168-185).  Returns
(engine invoked?, result delivered to view 1, result delivered to view 2).
When the short-circuit fires the method only redraws the two hex views and
returns; otherwise it calls `compare_and_highlight` in both directions
provided both file-data slots are truthy. -/
def start_comparison (hash1 hash2 : String) (fileData1 fileData2 : Option (List Nat))
    (numThreads : Nat) : Bool × Option (List Nat) × Option (List Nat) :=
  if shortCircuitFires hash1 hash2 then (false, none, none)
  else if truthy fileData1 && truthy fileData2 then
    (true, compare_and_highlight fileData1 fileData2 numThreads,
     compare_and_highlight fileData2 fileData1 numThreads)
  else (false, none, none)

/-- The compare-button enable policy of `DeltaApp.update_hash_colors`
(`src/__main__.py` lines 206-216): start enabled; disable when either slot is
truthy with length above the limit; disable when either slot is falsy. -/
def compareButtonEnabled (fileData1 fileData2 : Option (List Nat))
    (limit : Nat) : Bool :=
  if (truthy fileData1 && decide (limit < (fileData1.getD []).length)) ||
     (truthy fileData2 && decide (limit < (fileData2.getD []).length)) then false
  else if !truthy fileData1 || !truthy fileData2 then false
  else true

/-- Modelled from the spec: `isComparisonAllowed(bufferA, bufferB, sizeLimit)`
is "false if either buffer is absent, or either buffer's length exceeds
sizeLimit".  A buffer is absent when its slot holds no loaded file at all. -/
def isComparisonAllowed_specModel (fileData1 fileData2 : Option (List Nat))
    (limit : Nat) : Bool :=
  fileData1.isSome && fileData2.isSome &&
  decide ((fileData1.getD []).length ≤ limit) &&
  decide ((fileData2.getD []).length ≤ limit)

/-- The 1 MiB size limit of `DeltaApp.update_hash_colors`
(`src/__main__.py` line 198). -/
def sizeLimit : Nat := 1024 * 1024

/-!
The streaming hash engine (`HashWorker.run`, `src/__main__.py` lines 23-40).

The module `src/__main__.py` contains the statement `mmap.mmap(...)` on line
28, but `mmap` appears in none of its import statements (lines 1-13) and is
not a Python builtin, so evaluating that expression raises
`NameError: name 'mmap' is not defined` inside the `try` block on every run
that manages to open the file; the `except` branch then reports that message
for every algorithm.  The model makes the name lookup explicit.

The digest computation the dead success branch would perform is modelled
from the spec by reference implementations of MD5 and SHA-256 over `Nat`
(the two algorithms the testable properties name); they are validated below
against the standard test vectors.
-/

/-- The names bound at module level in `src/__main__.py`: the imports of
lines 1-13 and the module-level definitions.  `mmap` is not among them. -/
def mainModuleGlobals : List String :=
  ["sys", "ctypes", "os",
   "QApplication", "QMainWindow", "QWidget", "QHBoxLayout", "QVBoxLayout",
   "QFrame", "QLabel", "QTabWidget", "QLineEdit", "QPushButton", "QScrollArea",
   "QIcon", "QPixmap", "QPalette", "Qt", "QThread", "QObject", "Signal",
   "apply_stylesheet", "Path", "hashlib",
   "DropZone", "FileView", "QSplitter",
   "HashWorker", "resource_path", "DeltaApp"]

/-- Truncation to a 32-bit word. -/
def w32 (x : Nat) : Nat := x % 4294967296

/-- Right rotation of a 32-bit word. -/
def rotr32 (x n : Nat) : Nat := w32 ((x >>> n) ||| (x <<< (32 - n)))

/-- Left rotation of a 32-bit word. -/
def rotl32 (x n : Nat) : Nat := w32 ((x <<< n) ||| (x >>> (32 - n)))

/-- Bitwise complement of a 32-bit word. -/
def not32 (x : Nat) : Nat := x ^^^ 4294967295

/-- `n` bytes of `x`, big-endian. -/
def beBytes : Nat → Nat → List Nat
  | 0, _ => []
  | k + 1, x => beBytes k (x / 256) ++ [x % 256]

/-- `n` bytes of `x`, little-endian. -/
def leBytes : Nat → Nat → List Nat
  | 0, _ => []
  | k + 1, x => x % 256 :: leBytes k (x / 256)

/-- Bytes to 32-bit words, big-endian. -/
def beWords : List Nat → List Nat
  | a :: b :: c :: d :: rest => (((a * 256 + b) * 256 + c) * 256 + d) :: beWords rest
  | _ => []

/-- Bytes to 32-bit words, little-endian. -/
def leWords : List Nat → List Nat
  | a :: b :: c :: d :: rest => (((d * 256 + c) * 256 + b) * 256 + a) :: leWords rest
  | _ => []

/-- Split a list into consecutive pieces of `k` elements (fuel-driven;
`fuel ≥ l.length` suffices). -/
def chunkList (k : Nat) : Nat → List Nat → List (List Nat)
  | 0, _ => []
  | _ + 1, [] => []
  | fuel + 1, a :: l => (a :: l).take k :: chunkList k fuel ((a :: l).drop k)

/-- Merkle–Damgård padding shared by MD5 and SHA-256: the byte `0x80`, then
zero bytes up to 56 mod 64, then the bit length on 8 bytes. -/
def mdPadTail (len : Nat) (lenBytes : List Nat) : List Nat :=
  128 :: List.replicate ((119 - len % 64) % 64) 0 ++ lenBytes

def hexDigitChars : List Char := "0123456789abcdef".toList

/-- `width` lowercase hex digits of `x`, most significant first. -/
def hexNat : Nat → Nat → List Char
  | 0, _ => []
  | k + 1, x => hexNat k (x / 16) ++ [hexDigitChars.getD (x % 16) '0']

/-- SHA-256 round constants. -/
def sha256K : List Nat :=
  [1116352408, 1899447441, 3049323471, 3921009573, 961987163,
   1508970993, 2453635748, 2870763221, 3624381080, 310598401,
   607225278, 1426881987, 1925078388, 2162078206, 2614888103,
   3248222580, 3835390401, 4022224774, 264347078, 604807628,
   770255983, 1249150122, 1555081692, 1996064986, 2554220882,
   2821834349, 2952996808, 3210313671, 3336571891, 3584528711,
   113926993, 338241895, 666307205, 773529912, 1294757372,
   1396182291, 1695183700, 1986661051, 2177026350, 2456956037,
   2730485921, 2820302411, 3259730800, 3345764771, 3516065817,
   3600352804, 4094571909, 275423344, 430227734, 506948616,
   659060556, 883997877, 958139571, 1322822218, 1537002063,
   1747873779, 1955562222, 2024104815, 2227730452, 2361852424,
   2428436474, 2756734187, 3204031479, 3329325298]

def sha256init : List Nat :=
  [1779033703, 3144134277, 1013904242, 2773480762,
   1359893119, 2600822924, 528734635, 1541459225]

def smallSigma0 (x : Nat) : Nat := rotr32 x 7 ^^^ rotr32 x 18 ^^^ (x >>> 3)

def smallSigma1 (x : Nat) : Nat := rotr32 x 17 ^^^ rotr32 x 19 ^^^ (x >>> 10)

def bigSigma0 (x : Nat) : Nat := rotr32 x 2 ^^^ rotr32 x 13 ^^^ rotr32 x 22

def bigSigma1 (x : Nat) : Nat := rotr32 x 6 ^^^ rotr32 x 11 ^^^ rotr32 x 25

def chFun (x y z : Nat) : Nat := (x &&& y) ^^^ (not32 x &&& z)

def majFun (x y z : Nat) : Nat := (x &&& y) ^^^ (x &&& z) ^^^ (y &&& z)

/-- Extend the 16 message words by `n` further schedule words. -/
def extendSchedule : Nat → List Nat → List Nat
  | 0, acc => acc
  | n + 1, acc =>
      let t := acc.length
      extendSchedule n (acc ++
        [w32 (acc.getD (t - 16) 0 + smallSigma0 (acc.getD (t - 15) 0) +
              acc.getD (t - 7) 0 + smallSigma1 (acc.getD (t - 2) 0))])

/-- One SHA-256 round on the eight-word working state. -/
def sha256step (st : List Nat) (kw : Nat × Nat) : List Nat :=
  match st with
  | [a, b, c, d, e, f, g, h] =>
      let t1 := w32 (h + bigSigma1 e + chFun e f g + kw.1 + kw.2)
      let t2 := w32 (bigSigma0 a + majFun a b c)
      [w32 (t1 + t2), a, b, c, w32 (d + t1), e, f, g]
  | other => other

/-- SHA-256 compression of one 64-byte block into the hash value. -/
def sha256compress (hv block : List Nat) : List Nat :=
  let ws := extendSchedule 48 (beWords block)
  let st := (sha256K.zip ws).foldl sha256step hv
  List.zipWith (fun x y => w32 (x + y)) hv st

/-- Modelled from the spec: the reference SHA-256 hex digest of a byte
sequence (the "reference implementation" the spec's scenario appeals to;
`hashlib.sha256` is external library code). -/
def sha256Hex (msg : List Nat) : String :=
  let padded := msg ++ mdPadTail msg.length (beBytes 8 (8 * msg.length))
  let final := (chunkList 64 padded.length padded).foldl sha256compress sha256init
  ⟨(final.map (hexNat 8)).flatten⟩

/-- MD5 sine-derived constants `⌊2³² · |sin(i+1)|⌋`. -/
def md5K : List Nat :=
  [3614090360, 3905402710, 606105819, 3250441966, 4118548399,
   1200080426, 2821735955, 4249261313, 1770035416, 2336552879,
   4294925233, 2304563134, 1804603682, 4254626195, 2792965006,
   1236535329, 4129170786, 3225465664, 643717713, 3921069994,
   3593408605, 38016083, 3634488961, 3889429448, 568446438,
   3275163606, 4107603335, 1163531501, 2850285829, 4243563512,
   1735328473, 2368359562, 4294588738, 2272392833, 1839030562,
   4259657740, 2763975236, 1272893353, 4139469664, 3200236656,
   681279174, 3936430074, 3572445317, 76029189, 3654602809,
   3873151461, 530742520, 3299628645, 4096336452, 1126891415,
   2878612391, 4237533241, 1700485571, 2399980690, 4293915773,
   2240044497, 1873313359, 4264355552, 2734768916, 1309151649,
   4149444226, 3174756917, 718787259, 3951481745]

/-- MD5 per-step left-rotation amounts. -/
def md5S : List Nat :=
  [7, 12, 17, 22, 7, 12, 17, 22, 7, 12, 17, 22, 7, 12, 17, 22,
   5, 9, 14, 20, 5, 9, 14, 20, 5, 9, 14, 20, 5, 9, 14, 20,
   4, 11, 16, 23, 4, 11, 16, 23, 4, 11, 16, 23, 4, 11, 16, 23,
   6, 10, 15, 21, 6, 10, 15, 21, 6, 10, 15, 21, 6, 10, 15, 21]

/-- One MD5 step `i` on state `(A, B, C, D)` with block words `M`. -/
def md5step (M : List Nat) (st : Nat × Nat × Nat × Nat) (i : Nat) :
    Nat × Nat × Nat × Nat :=
  let (a, b, c, d) := st
  let f :=
    if i < 16 then (b &&& c) ||| (not32 b &&& d)
    else if i < 32 then (d &&& b) ||| (not32 d &&& c)
    else if i < 48 then b ^^^ c ^^^ d
    else c ^^^ (b ||| not32 d)
  let g :=
    if i < 16 then i
    else if i < 32 then (5 * i + 1) % 16
    else if i < 48 then (3 * i + 5) % 16
    else (7 * i) % 16
  let rotated := rotl32 (w32 (f + a + md5K.getD i 0 + M.getD g 0)) (md5S.getD i 0)
  (d, w32 (b + rotated), b, c)

/-- MD5 compression of one 64-byte block into the state. -/
def md5compress (st : List Nat) (block : List Nat) : List Nat :=
  match st with
  | [a0, b0, c0, d0] =>
      let M := leWords block
      let (a, b, c, d) := (List.range 64).foldl (md5step M) (a0, b0, c0, d0)
      [w32 (a0 + a), w32 (b0 + b), w32 (c0 + c), w32 (d0 + d)]
  | other => other

def md5init : List Nat := [1732584193, 4023233417, 2562383102, 271733878]

/-- Modelled from the spec: the reference MD5 hex digest of a byte sequence
(little-endian length field and little-endian digest serialisation). -/
def md5Hex (msg : List Nat) : String :=
  let padded := msg ++ mdPadTail msg.length (leBytes 8 (8 * msg.length))
  let final := (chunkList 64 padded.length padded).foldl md5compress md5init
  ⟨((final.map (leBytes 4)).flatten.map (hexNat 2)).flatten⟩

/-- The digest the success path would compute for one algorithm; only the
two algorithms named by the spec's scenario are modelled. -/
def digestHex (algo : String) (data : List Nat) : String :=
  if algo == "md5" then md5Hex data
  else if algo == "sha256" then sha256Hex data
  else ""

/-- The 64 KiB read loop of `HashWorker.run` (`src/__main__.py` lines 30-34):
the block list each accumulator absorbs, in file order. -/
def hashStreamChunks (data : List Nat) : List (List Nat) :=
  chunkList 65536 data.length data

/-- The digest of the byte stream an accumulator absorbs block by block:
the algorithm applied to the concatenation of the streamed blocks. -/
def streamedDigestHex (algo : String) (data : List Nat) : String :=
  digestHex algo (hashStreamChunks data).flatten

/-- `HashWorker.run` (`src/__main__.py` lines 23-40).  `openResult` is the
outcome of `open(self.file_path, "rb")` + read (`.error e` carries the
exception text `str(e)`).  When the file opens, line 28 evaluates the global
name `mmap`; the lookup fails, the `NameError` text is caught by the
`except` branch, and every algorithm slot receives `f"Error: {e}"`. -/
def HashWorker_run (openResult : Except String (List Nat))
    (algorithms : List String) : List (String × String) :=
  match openResult with
  | .error e => algorithms.map (fun a => (a, "Error: " ++ e))
  | .ok data =>
      if mainModuleGlobals.contains "mmap" then
        algorithms.map (fun a => (a, streamedDigestHex a data))
      else
        algorithms.map (fun a => (a, "Error: " ++ "name 'mmap' is not defined"))

theorem ceil_mul_ge (L cs : Nat) (hcs : 0 < cs) : L ≤ ((L + cs - 1) / cs) * cs := by
  have h1 := Nat.div_add_mod (L + cs - 1) cs
  have h2 : (L + cs - 1) % cs < cs := Nat.mod_lt _ hcs
  rw [mul_comm]
  omega

theorem byteOrSentinel_pySlice (A : List Nat) (s cs i : Nat) (h : i < cs) :
    byteOrSentinel (pySlice A s cs) i = byteOrSentinel A (s + i) := by
  simp only [byteOrSentinel, pySlice, List.getD_eq_getElem?_getD,
    List.getElem?_take, List.getElem?_drop, List.length_take, List.length_drop,
    if_pos h]
  by_cases h2 : s + i < A.length
  · rw [if_pos (by omega), if_pos h2]
  · rw [if_neg (by omega), if_neg h2]

theorem ChunkComparisonWorker_run_pySlice (A B : List Nat) (s cs : Nat) :
    ChunkComparisonWorker_run (pySlice A s cs) (pySlice B s cs) s
      = (List.range' s (min cs (max A.length B.length - s))).filter (diffAt A B) := by
  have hK : max (pySlice A s cs).length (pySlice B s cs).length
      = min cs (max A.length B.length - s) := by
    simp only [pySlice, List.length_take, List.length_drop]
    omega
  unfold ChunkComparisonWorker_run
  rw [hK, List.range'_eq_map_range, List.filter_map]
  refine congrArg _ (List.filter_congr ?_)
  intro i hi
  rw [List.mem_range] at hi
  have hic : i < cs := lt_of_lt_of_le hi (by omega)
  simp only [Function.comp_apply, diffAt, byteOrSentinel_pySlice A s cs i hic,
    byteOrSentinel_pySlice B s cs i hic]

theorem flatten_chunks (p : Nat → Bool) (cs : Nat) (hcs : 0 < cs) :
    ∀ (m s L : Nat), L ≤ s + m * cs →
      ((List.range' s m cs).map
        (fun st => (List.range' st (min cs (L - st))).filter p)).flatten
        = (List.range' s (L - s)).filter p := by
  intro m
  induction m with
  | zero =>
    intro s L h
    have hL : L - s = 0 := by omega
    simp [hL, List.range'_zero]
  | succ m ih =>
    intro s L h
    rw [List.range'_succ]
    simp only [List.map_cons, List.flatten_cons]
    rw [Nat.succ_mul] at h
    rw [ih (s + cs) L (by omega)]
    by_cases hcase : L ≤ s + cs
    · have h1 : min cs (L - s) = L - s := by omega
      have h2 : L - (s + cs) = 0 := by omega
      rw [h1, h2]
      simp [List.range'_zero]
    · have h1 : min cs (L - s) = cs := by omega
      rw [h1, ← List.filter_append]
      refine congrArg _ ?_
      have happ := List.range'_append s cs (L - (s + cs)) 1
      rw [one_mul] at happ
      rw [happ]
      have hlen : L - (s + cs) + cs = L - s := by omega
      rw [hlen]

theorem naiveDiffs_sorted (A B : List Nat) : List.Sorted (· ≤ ·) (naiveDiffs A B) :=
  ((List.pairwise_lt_range (max A.length B.length)).filter (diffAt A B)).imp le_of_lt

theorem worker_flatten (A B : List Nat) (cs : Nat) (hcs : 0 < cs) :
    ((chunkStarts (max A.length B.length) cs).map
      (fun i => ChunkComparisonWorker_run (pySlice A i cs) (pySlice B i cs) i)).flatten
      = naiveDiffs A B := by
  rw [List.map_congr_left (fun s _ => ChunkComparisonWorker_run_pySlice A B s cs)]
  unfold chunkStarts
  rw [flatten_chunks (diffAt A B) cs hcs _ 0 _
    (by simpa using ceil_mul_ge (max A.length B.length) cs hcs)]
  rw [Nat.sub_zero, ← List.range_eq_range']
  rfl

theorem compareChunked_eq_naiveDiffs (A B : List Nat) (n : Nat) (hn : 0 < n) :
    compareChunked A B n = naiveDiffs A B := by
  by_cases h0 : max A.length B.length = 0
  · have hcs : (max A.length B.length + n - 1) / n = 0 := by
      rw [h0]; exact Nat.div_eq_of_lt (by omega)
    simp only [compareChunked]
    rw [hcs, if_pos rfl]
    simp [naiveDiffs, h0]
  · have hcs : 0 < (max A.length B.length + n - 1) / n :=
      Nat.div_pos (by omega) hn
    simp only [compareChunked]
    rw [if_neg (by omega)]
    rw [worker_flatten A B _ hcs]
    exact List.Sorted.insertionSort_eq (naiveDiffs_sorted A B)

theorem mem_naiveDiffs (A B : List Nat) (i : Nat) :
    i ∈ naiveDiffs A B ↔
      i < max A.length B.length ∧ byteOrSentinel A i ≠ byteOrSentinel B i := by
  simp [naiveDiffs, List.mem_filter, diffAt, List.mem_range]

theorem naiveDiffs_comm (A B : List Nat) : naiveDiffs A B = naiveDiffs B A := by
  unfold naiveDiffs
  rw [max_comm]
  exact List.filter_congr fun i _ => by
    simp only [diffAt]
    exact decide_eq_decide.mpr ne_comm

theorem naiveDiffs_self (A : List Nat) : naiveDiffs A A = [] := by
  simp [naiveDiffs, diffAt]

/-- C1: for every pair of byte buffers and every worker count `n ≥ 1`, the
merged result of the chunked parallel comparison (ceil-size chunks, per-chunk
scan, concatenate, sort) equals the naive single-pass scan over
`[0, max(len A, len B))`, and the delivered offset sequence is strictly
increasing with no duplicates; `compare(b"ABCD", b"ABXD") = [2]`. -/
theorem C1_chunked_merge_equals_naive_scan :
    (∀ A B n, 0 < n →
      compareChunked A B n = naiveDiffs A B ∧
      List.Pairwise (· < ·) (compareChunked A B n)) ∧
    compareChunked [65, 66, 67, 68] [65, 66, 88, 68] 4 = [2] := by
  constructor
  · intro A B n hn
    have h := compareChunked_eq_naiveDiffs A B n hn
    refine ⟨h, ?_⟩
    rw [h]
    exact (List.pairwise_lt_range _).filter _
  · decide

/-- C2: when the buffer lengths differ, every offset in
`[min(len A, len B), max(len A, len B))` appears in the comparison result,
because the `-1` sentinel never equals a byte value;
`compare(b"ABC", b"ABCDE") = [3, 4]`. -/
theorem C2_tail_length_mismatch_flagged :
    (∀ A B n i, 0 < n → A.length ≠ B.length →
      min A.length B.length ≤ i → i < max A.length B.length →
      i ∈ compareChunked A B n) ∧
    compareChunked [65, 66, 67] [65, 66, 67, 68, 69] 4 = [3, 4] := by
  constructor
  · intro A B n i hn hne hmin hmax
    rw [compareChunked_eq_naiveDiffs A B n hn, mem_naiveDiffs]
    refine ⟨hmax, ?_⟩
    rcases Nat.lt_or_ge i A.length with hA | hA
    · have hB : ¬ i < B.length := by omega
      simp only [byteOrSentinel, if_pos hA, if_neg hB]
      have : (0 : Int) ≤ (A.getD i 0 : Int) := Int.ofNat_nonneg _
      omega
    · have hB : i < B.length := by omega
      simp only [byteOrSentinel, if_neg (by omega : ¬ i < A.length), if_pos hB]
      have : (0 : Int) ≤ (B.getD i 0 : Int) := Int.ofNat_nonneg _
      omega
  · decide

/-- C8: `compare(A, B)` and `compare(B, A)` report the same set of differing
offsets, though the sentinel logic runs per call. -/
theorem C8_compare_offset_set_symmetric : ∀ A B n, 0 < n → ∀ i,
    (i ∈ compareChunked A B n ↔ i ∈ compareChunked B A n) := by
  intro A B n hn i
  rw [compareChunked_eq_naiveDiffs A B n hn, compareChunked_eq_naiveDiffs B A n hn,
    naiveDiffs_comm]

/-- C9: comparing any buffer against itself — length 0 (where the engine
short-circuits), length 1, or longer than one chunk — yields no diffs. -/
theorem C9_compare_self_empty : ∀ A n, 0 < n → compareChunked A A n = [] := by
  intro A n hn
  rw [compareChunked_eq_naiveDiffs A A n hn, naiveDiffs_self]

theorem chunkPairs_getElem (L cs j : Nat)
    (hj : j < ((chunkStarts L cs).map (fun s => (s, min (s + cs) L))).length) :
    ((chunkStarts L cs).map (fun s => (s, min (s + cs) L)))[j]
      = (j * cs, min (j * cs + cs) L) := by
  simp only [chunkStarts] at hj ⊢
  rw [List.getElem_map, List.getElem_range']
  rw [Nat.zero_add, Nat.mul_comm]

theorem chunkPairs_spec (L cs : Nat) (hL : 0 < L) (hcs : 0 < cs) :
    (chunkStarts L cs).map (fun s => (s, min (s + cs) L)) ≠ [] ∧
    (∀ c ∈ (chunkStarts L cs).map (fun s => (s, min (s + cs) L)),
      c.2 - c.1 ≤ cs) ∧
    (∀ c ∈ ((chunkStarts L cs).map (fun s => (s, min (s + cs) L))).dropLast,
      c.2 - c.1 = cs) ∧
    (((chunkStarts L cs).map (fun s => (s, min (s + cs) L))).map
      (fun c => List.range' c.1 (c.2 - c.1))).flatten = List.range L := by
  have hm : 0 < (L + cs - 1) / cs := Nat.div_pos (by omega) hcs
  have hlen : ((chunkStarts L cs).map (fun s => (s, min (s + cs) L))).length
      = (L + cs - 1) / cs := by
    simp [chunkStarts]
  have hlast : ((L + cs - 1) / cs - 1) * cs < L := by
    have := Nat.div_mul_le_self (L + cs - 1) cs
    rw [Nat.sub_one_mul]
    omega
  refine ⟨?_, ?_, ?_, ?_⟩
  · intro hnil
    have := congrArg List.length hnil
    rw [hlen] at this
    simp at this
    omega
  · intro c hc
    rw [List.mem_iff_getElem] at hc
    obtain ⟨j, hj, rfl⟩ := hc
    rw [chunkPairs_getElem L cs j hj]
    simp only
    omega
  · intro c hc
    rw [List.mem_iff_getElem] at hc
    obtain ⟨j, hj, rfl⟩ := hc
    rw [List.length_dropLast, hlen] at hj
    rw [List.getElem_dropLast, chunkPairs_getElem L cs j
      (by rw [hlen]; omega)]
    simp only
    have h1 : (j + 1) * cs ≤ ((L + cs - 1) / cs - 1) * cs :=
      Nat.mul_le_mul_right cs (by omega)
    rw [Nat.succ_mul] at h1
    omega
  · have hfun : ∀ s ∈ chunkStarts L cs,
        ((fun c : Nat × Nat => List.range' c.1 (c.2 - c.1)) ∘
          (fun s => (s, min (s + cs) L))) s
          = (fun st => (List.range' st (min cs (L - st))).filter (fun _ => true)) s := by
      intro s _
      simp only [Function.comp_apply, List.filter_true]
      congr 1
      omega
    rw [List.map_map, List.map_congr_left hfun]
    unfold chunkStarts
    rw [flatten_chunks (fun _ => true) cs hcs _ 0 _
      (by simpa using ceil_mul_ge L cs hcs)]
    rw [Nat.sub_zero, ← List.range_eq_range', List.filter_true]

set_option maxRecDepth 10000 in
/-- C7: for `totalLength ≥ 1` and `workerCount ≥ 1`, partitioning produces
non-empty chunks of size `ceil(totalLength / workerCount)` except possibly a
shorter last one, and the chunk intervals concatenate to exactly
`[0, totalLength)` in order (hence pairwise disjoint, no gaps); `1000 / 4`
gives 4 ranges of at most 250 covering `[0, 1000)`. -/
theorem C7_partition_ceil_chunks_cover :
    (∀ L n, 0 < L → 0 < n →
      partitionChunks L n ≠ [] ∧
      (∀ c ∈ partitionChunks L n, c.2 - c.1 ≤ (L + n - 1) / n) ∧
      (∀ c ∈ (partitionChunks L n).dropLast, c.2 - c.1 = (L + n - 1) / n) ∧
      ((partitionChunks L n).map (fun c => List.range' c.1 (c.2 - c.1))).flatten
        = List.range L) ∧
    ((partitionChunks 1000 4).length = 4 ∧
     (∀ c ∈ partitionChunks 1000 4, c.2 - c.1 ≤ 250) ∧
     ((partitionChunks 1000 4).map (fun c => List.range' c.1 (c.2 - c.1))).flatten
        = List.range 1000) := by
  constructor
  · intro L n hL hn
    have hcs : 0 < (L + n - 1) / n := Nat.div_pos (by omega) hn
    simpa only [partitionChunks] using chunkPairs_spec L ((L + n - 1) / n) hL hcs
  · refine ⟨by decide, by decide, by decide⟩

/-- C3 counterexample: with both hash-output strings equal to the error text
`"Error: x"`, the code's short-circuit fires even though both digests are
errors, refuting "fires iff both digests are present, non-error, and equal"
(the spec-modelled `shouldShortCircuit` is false there). -/
theorem C3_short_circuit_fires_on_error_text :
    shortCircuitFires "Error: x" "Error: x" = true ∧
    isErrorText "Error: x" = true ∧
    shouldShortCircuit_specModel "Error: x" "Error: x" = false := by decide

/-- C3 amended: the short-circuit fires iff both hash-output strings are
non-empty and byte-for-byte equal (error text included — the code never
checks for the error form); whenever it fires, `start_comparison` returns
without invoking the diff engine and no diff is delivered. -/
theorem C3_short_circuit_on_equal_nonempty_text :
    (∀ h1 h2, shortCircuitFires h1 h2 = true ↔ (h1 ≠ "" ∧ h2 ≠ "" ∧ h1 = h2)) ∧
    (∀ h1 h2 fd1 fd2 n, shortCircuitFires h1 h2 = true →
      start_comparison h1 h2 fd1 fd2 n = (false, none, none)) := by
  constructor
  · intro h1 h2
    simp [shortCircuitFires, and_assoc]
  · intro h1 h2 fd1 fd2 n h
    simp [start_comparison, h]

set_option linter.unnecessarySeqFocus false in
theorem compareButtonEnabled_iff (fd1 fd2 : Option (List Nat)) (limit : Nat) :
    compareButtonEnabled fd1 fd2 limit = true ↔
      (truthy fd1 = true ∧ truthy fd2 = true ∧
       (fd1.getD []).length ≤ limit ∧ (fd2.getD []).length ≤ limit) := by
  cases fd1 with
  | none => simp [compareButtonEnabled, truthy]
  | some l1 =>
    cases fd2 with
    | none => simp [compareButtonEnabled, truthy]
    | some l2 =>
      simp only [compareButtonEnabled, truthy, Option.getD_some]
      by_cases e1 : l1.isEmpty <;> by_cases e2 : l2.isEmpty <;>
        by_cases h3 : limit < l1.length <;> by_cases h4 : limit < l2.length <;>
        simp [e1, e2, h3, h4] <;> omega

/-- C6 counterexample: a loaded empty buffer against a loaded 1-byte buffer
is within the 1 MiB limit and both buffers are present, so the claimed
`isComparisonAllowed` is true, yet the code disables the compare action
(Python truthiness treats `b""` like an absent file). -/
theorem C6_disabled_for_empty_loaded_buffer :
    isComparisonAllowed_specModel (some []) (some [65]) sizeLimit = true ∧
    compareButtonEnabled (some []) (some [65]) sizeLimit = false := by decide

/-- C6 amended: the compare action is enabled exactly when both file-data
slots hold a non-empty buffer and neither length exceeds the limit; the
claimed scenario (2 MiB versus 10 bytes at a 1 MiB limit) is disallowed. -/
theorem C6_compare_enabled_iff_nonempty_within_limit :
    (∀ fd1 fd2 limit,
      compareButtonEnabled fd1 fd2 limit = true ↔
        (truthy fd1 = true ∧ truthy fd2 = true ∧
         (fd1.getD []).length ≤ limit ∧ (fd2.getD []).length ≤ limit)) ∧
    compareButtonEnabled (some (List.replicate (2 * 1024 * 1024) 0))
      (some (List.replicate 10 0)) sizeLimit = false := by
  refine ⟨compareButtonEnabled_iff, ?_⟩
  rw [Bool.eq_false_iff]
  intro h
  rw [compareButtonEnabled_iff] at h
  obtain ⟨-, -, h3, -⟩ := h
  rw [Option.getD_some, List.length_replicate] at h3
  norm_num [sizeLimit] at h3

/-- C10: whenever either side of the comparison entry point is the empty
byte string, no chunk task is dispatched and no diff is ever delivered
(result `none`), identically to the no-file-loaded case; likewise
`start_comparison` never invokes the engine then. -/
theorem C10_empty_buffer_no_dispatch :
    ∀ od fd h1 h2 n,
      compare_and_highlight (some []) od n = none ∧
      compare_and_highlight fd (some []) n = none ∧
      compare_and_highlight (some []) od n = compare_and_highlight none od n ∧
      compare_and_highlight fd (some []) n = compare_and_highlight fd none n ∧
      (start_comparison h1 h2 (some []) od n).1 = false ∧
      (start_comparison h1 h2 fd (some []) n).1 = false := by
  intro od fd h1 h2 n
  by_cases hsc : shortCircuitFires h1 h2 <;>
    refine ⟨?_, ?_, ?_, ?_, ?_, ?_⟩ <;>
    simp [compare_and_highlight, start_comparison, truthy, hsc]

theorem mmap_not_defined : mainModuleGlobals.contains "mmap" = false := by decide

theorem map_fst_pair (algos : List String) (msg : String) :
    (algos.map (fun a => (a, msg))).map Prod.fst = algos := by
  induction algos with
  | nil => rfl
  | cons a t ih => simp only [List.map_cons, ih]

theorem HashWorker_run_ok (data : List Nat) (algos : List String) :
    HashWorker_run (.ok data) algos
      = algos.map (fun a => (a, "Error: " ++ "name 'mmap' is not defined")) := by
  simp only [HashWorker_run]
  rw [if_neg (by decide)]

/-- C5: every delivered `DigestResult` maps every requested algorithm, in
order, to one and the same `"Error: ..."` string — never a partial mapping,
never a mix of digests and errors.  (Every run fails: an open/read failure
takes the `except` path directly, and a successful open still raises
`NameError` at the unimported `mmap`.) -/
theorem C5_hash_failure_uniform_error_map :
    ∀ openResult algorithms,
      ((HashWorker_run openResult algorithms).map Prod.fst = algorithms) ∧
      ∃ msg, HashWorker_run openResult algorithms
          = algorithms.map (fun a => (a, "Error: " ++ msg)) := by
  intro r algos
  cases r with
  | error e =>
    exact ⟨map_fst_pair algos ("Error: " ++ e), e, rfl⟩
  | ok data =>
    rw [HashWorker_run_ok]
    exact ⟨map_fst_pair algos ("Error: " ++ "name 'mmap' is not defined"),
      "name 'mmap' is not defined", rfl⟩

/-- C4 (code bug): hashing the 200,000-zero-byte file with MD5 and SHA-256
does not produce the reference digests — `mmap` is never imported in
`src/__main__.py`, so the run raises `NameError` and delivers the uniform
error text for both algorithms instead of the well-known digests (which the
validated `md5Hex`/`sha256Hex` reference models would compute). -/
theorem C4_hash_run_delivers_mmap_name_error :
    HashWorker_run (.ok (List.replicate 200000 0)) ["md5", "sha256"]
      = [("md5", "Error: name 'mmap' is not defined"),
         ("sha256", "Error: name 'mmap' is not defined")] := by
  rfl

theorem chunkList_flatten (k : Nat) (hk : 0 < k) :
    ∀ (fuel : Nat) (l : List Nat), l.length ≤ fuel →
      (chunkList k fuel l).flatten = l := by
  intro fuel
  induction fuel with
  | zero =>
    intro l h
    cases l with
    | nil => rfl
    | cons a t => simp at h
  | succ fuel ih =>
    intro l h
    cases l with
    | nil => rfl
    | cons a t =>
      simp only [chunkList, List.flatten_cons]
      rw [ih ((a :: t).drop k)
        (by simp only [List.length_drop, List.length_cons] at h ⊢; omega)]
      exact List.take_append_drop k (a :: t)

theorem streamedDigestHex_eq (algo : String) (data : List Nat) :
    streamedDigestHex algo data = digestHex algo data := by
  unfold streamedDigestHex hashStreamChunks
  rw [chunkList_flatten 65536 (by omega) data.length data le_rfl]

set_option maxRecDepth 1000000 in
theorem md5Hex_nil_vector : md5Hex [] = "d41d8cd98f00b204e9800998ecf8427e" := by decide

set_option maxRecDepth 1000000 in
theorem sha256Hex_nil_vector :
    sha256Hex [] = "e3b0c44298fc1c149afbf4c8996fb92427ae41e4649b934ca495991b7852b855" := by
  decide

set_option maxRecDepth 1000000 in
theorem md5Hex_abc_vector : md5Hex [97, 98, 99] = "900150983cd24fb0d6963f7d28e17f72" := by
  decide

set_option maxRecDepth 1000000 in
theorem sha256Hex_abc_vector :
    sha256Hex [97, 98, 99]
      = "ba7816bf8f01cfea414140de5dae2223b00361a396177a9cb410ff61f20015ad" := by
  decide

theorem C1_witness :
    0 < 4 ∧
    (compareChunked [65, 66, 67, 68] [65, 66, 88, 68] 4
        = naiveDiffs [65, 66, 67, 68] [65, 66, 88, 68] ∧
     List.Pairwise (· < ·) (compareChunked [65, 66, 67, 68] [65, 66, 88, 68] 4)) :=
  ⟨by decide,
   C1_chunked_merge_equals_naive_scan.1 [65, 66, 67, 68] [65, 66, 88, 68] 4 (by decide)⟩

theorem C2_witness :
    0 < 4 ∧ [65, 66, 67].length ≠ [65, 66, 67, 68, 69].length ∧
    min [65, 66, 67].length [65, 66, 67, 68, 69].length ≤ 3 ∧
    3 < max [65, 66, 67].length [65, 66, 67, 68, 69].length ∧
    3 ∈ compareChunked [65, 66, 67] [65, 66, 67, 68, 69] 4 :=
  ⟨by decide, by decide, by decide, by decide,
   C2_tail_length_mismatch_flagged.1 [65, 66, 67] [65, 66, 67, 68, 69] 4 3
     (by decide) (by decide) (by decide) (by decide)⟩

theorem C3_witness :
    shortCircuitFires "abc" "abc" = true ∧
    start_comparison "abc" "abc" (some [1]) (some [2]) 3 = (false, none, none) :=
  ⟨by decide,
   C3_short_circuit_on_equal_nonempty_text.2 "abc" "abc" (some [1]) (some [2]) 3
     (by decide)⟩

theorem C7_witness :
    0 < 5 ∧ 0 < 2 ∧
    (partitionChunks 5 2 ≠ [] ∧
     (∀ c ∈ partitionChunks 5 2, c.2 - c.1 ≤ (5 + 2 - 1) / 2) ∧
     (∀ c ∈ (partitionChunks 5 2).dropLast, c.2 - c.1 = (5 + 2 - 1) / 2) ∧
     ((partitionChunks 5 2).map (fun c => List.range' c.1 (c.2 - c.1))).flatten
        = List.range 5) :=
  ⟨by decide, by decide, C7_partition_ceil_chunks_cover.1 5 2 (by decide) (by decide)⟩

theorem C8_witness :
    0 < 2 ∧ (1 ∈ compareChunked [5, 6] [5, 7] 2 ↔ 1 ∈ compareChunked [5, 7] [5, 6] 2) :=
  ⟨by decide, C8_compare_offset_set_symmetric [5, 6] [5, 7] 2 (by decide) 1⟩

theorem C9_witness :
    0 < 3 ∧ compareChunked [9, 9, 9, 9] [9, 9, 9, 9] 3 = [] :=
  ⟨by decide, C9_compare_self_empty [9, 9, 9, 9] 3 (by decide)⟩

end Delta
